import Mathlib

/-!
Verification development for the ambianic-edge pipeline core.

Shallow embedding of `src/ambianic/pipeline/inference.py` (the `load_labels`
helper and the `AiInference` pipe element).  Conventions:

* Monotonic clock readings (`time.monotonic()`) are modelled as rationals.
* A text file is modelled as the list of its lines, each line given without
  its terminating newline character (exactly what `f.readlines()` produces,
  minus the final `\n`; an inner character of a line is never `\n`).
* The filesystem is modelled as the list of existing file paths together
  with a `contents` function giving each path its lines
  (`os.path.isfile p` becomes membership of `p` in the path list).
* The external Coral detection engine (`DetectionEngine.DetectWithImage`)
  is opaque: one invocation is an `EngineCall` oracle recording the start
  timestamp, the engine outcome (a detection list, or a raised engine
  exception), and the end timestamp.  The argument record the stage passes
  to the engine is reified as `DetectArgs`.
* Python exceptions raised during `AiInference.__init__` are reified as the
  `ConstructError` sum: the two falsy-model `assert` failures are the
  spec's `ConfigurationError`/`MissingFileError`, a non-matching label line
  (where `p.match(line)` returns `None` and `.groups()` raises) is the
  spec's `LabelParseError`, and `os.path.isfile(None)` raising `TypeError`
  is kept as a separate case.
-/

namespace Ambianic

/-- Python's `\s` character class (the `re` module's whitespace set),
also the set stripped by `str.strip()`. -/
def isPySpace (c : Char) : Bool :=
  c == ' ' || c == '\t' || c == '\n' || c == '\r' || c == '\x0b' || c == '\x0c'

/-- Python's `str.strip()` on a character list: remove leading and trailing
whitespace. -/
def pyStripChars (cs : List Char) : List Char :=
  ((cs.dropWhile isPySpace).reverse.dropWhile isPySpace).reverse

/-- Python's `str.strip()`. -/
def pyStrip (s : String) : String :=
  String.mk (pyStripChars s.toList)

/-- Value of a decimal digit string, as computed by Python's `int`. -/
def digitsToNat (ds : List Char) : Nat :=
  ds.foldl (fun n c => 10 * n + (c.toNat - 48)) 0

/-- The regex match `re.compile(r'\s*(\d+)(.+)').match(line)` from
`load_labels`, returning the two capture groups when the line matches.
`\s*` takes the maximal whitespace prefix (no whitespace char is a digit,
so backtracking it can never help), `\d+` greedily takes the following
digit run, and `.+` takes the rest of the line up to a newline; when
nothing non-newline is left for `.+`, the regex backtracks the last digit
of `\d+` into `.+`, which needs the digit run to have length at least 2. -/
def matchLine (cs : List Char) : Option (List Char × List Char) :=
  let afterWs := cs.dropWhile isPySpace
  let ds := afterWs.takeWhile Char.isDigit
  let rest := (afterWs.dropWhile Char.isDigit).takeWhile (fun c => c ≠ '\n')
  if ds.isEmpty then none
  else if rest.isEmpty then
    if ds.length < 2 then none else some (ds.dropLast, ds.drop (ds.length - 1))
  else some (ds, rest)

/-- The generator `(p.match(line).groups() for line in f.readlines())`
combined with the per-entry work of the dict comprehension
`{int(num): text.strip() for num, text in lines}`: each line must match,
and yields the pair `(int(num), text.strip())`; the first line where
`p.match` returns `None` makes `.groups()` raise, so the whole parse
yields nothing (`none`). -/
def parseLabelLines : List (List Char) → Option (List (Nat × String))
  | [] => some []
  | line :: rest =>
    match matchLine line with
    | none => none
    | some (num, text) =>
      match parseLabelLines rest with
      | none => none
      | some ps => some ((digitsToNat num, pyStrip (String.mk text)) :: ps)

/-- One Python-dict insertion: an existing key keeps its position and gets
the new value, a fresh key is appended. -/
def dictInsert (d : List (Nat × String)) (k : Nat) (v : String) : List (Nat × String) :=
  if (d.map Prod.fst).contains k then
    d.map (fun p => if p.1 = k then (k, v) else p)
  else d ++ [(k, v)]

/-- The dict comprehension `{int(num): text.strip() for num, text in lines}`
over already-parsed entries. -/
def buildDict (ps : List (Nat × String)) : List (Nat × String) :=
  ps.foldl (fun d p => dictInsert d p.1 p.2) []

/-- `load_labels(path)` applied to the lines of the file at `path`:
parse every line with the regex and build the id-to-text dict; any
non-matching line aborts the whole load. -/
def load_labels (lines : List String) : Option (List (Nat × String)) :=
  (parseLabelLines (lines.map String.toList)).map buildDict

/-- One detection result returned by the external engine.  Opaque to this
core (only passed through), identified by a tag. -/
structure Obj where
  id : Nat
deriving DecidableEq, Repr

/-- An engine exception raised by `DetectWithImage` (opaque). -/
structure EngineError where
  code : Nat
deriving DecidableEq, Repr

/-- A sample travelling through the pipe chain: either a raw image frame
(opaque) or the package `[objs, self.labels, text_lines]` the detection
stage forwards downstream. -/
inductive Sample where
  | image (frame : Nat)
  | packaged (objs : List Obj) (labels : List (Nat × String)) (text_lines : String)
deriving DecidableEq, Repr

/-- The state of an `AiInference` pipe element.  `next_element` is the
ownership-free reference to the downstream stage from the `PipeElement`
base class; in the two-element chain semantics below (`receivePair`) a
`some` reference resolves to the chain's other element. -/
structure AiInference where
  labels : List (Nat × String)
  last_time : ℚ
  confidence_threshold : ℚ
  next_element : Option Unit
deriving DecidableEq, Repr

/-- The `element_config` record handed to `AiInference.__init__`
(a key absent from the dict is `none`). -/
structure ElementConfig where
  model : Option String
  labels : Option String
  confidence_threshold : Option ℚ
  top_k : Option Nat
deriving DecidableEq, Repr

/-- Exceptions that can abort `AiInference.__init__`, under the spec's
error taxonomy: `configurationError` for the falsy-model assertion,
`missingFileError` for a path that is not an existing file,
`labelParseError` for a label line the regex rejects, and `typeError`
for `os.path.isfile(None)`. -/
inductive ConstructError where
  | configurationError
  | missingFileError
  | labelParseError
  | typeError
deriving DecidableEq, Repr

/-- `AiInference.__init__(element_config)`: check `model` is present and
truthy, check the model path and then the labels path are existing files,
load the labels, record the construction-time clock reading in
`last_time`, and resolve `confidence_threshold` with default `0.6`.
`next_element` starts unset (modelled from the spec for the `PipeElement`
base constructor, which is not part of the analysed sources: a stage has
no successor until wired). -/
def AiInference.construct (fs : List String) (contents : String → List String)
    (now : ℚ) (cfg : ElementConfig) : Except ConstructError AiInference :=
  match cfg.model with
  | none => .error .configurationError
  | some m =>
    if m = "" then .error .configurationError
    else if fs.contains m then
      match cfg.labels with
      | none => .error .typeError
      | some l =>
        if fs.contains l then
          match load_labels (contents l) with
          | none => .error .labelParseError
          | some d =>
            .ok { labels := d
                  last_time := now
                  confidence_threshold := cfg.confidence_threshold.getD (6/10)
                  next_element := none }
        else .error .missingFileError
    else .error .missingFileError

/-- Modelled from the spec: `PipeElement.set_next(element)`, not part of
the analysed sources (only the base class declaration lives outside them).
It stores an ownership-free reference to the downstream stage; the last
call wins.  The chain owns the elements, so the reference is a handle
resolved by the chain semantics (`receivePair` resolves it to the chain's
second element). -/
def AiInference.set_next (s : AiInference) : AiInference :=
  { s with next_element := some () }

/-- The argument record of one `DetectWithImage` invocation. -/
structure DetectArgs where
  image : Sample
  threshold : ℚ
  keep_aspect_ratio : Bool
  relative_coord : Bool
  top_k : Nat
deriving DecidableEq, Repr

/-- Oracle for one engine invocation: the monotonic clock reading just
before the call, the call's outcome (detections, or a raised engine
exception), and the clock reading just after. -/
structure EngineCall where
  start_time : ℚ
  result : Except EngineError (List Obj)
  end_time : ℚ

/-- The arguments `receive_next_sample` hands to
`self.engine.DetectWithImage`: the image, `threshold=self.confidence_threshold`,
`keep_aspect_ratio=True`, `relative_coord=True`, and the literal `top_k=3`. -/
def detectArgs (s : AiInference) (image : Sample) : DetectArgs :=
  { image := image
    threshold := s.confidence_threshold
    keep_aspect_ratio := true
    relative_coord := true
    top_k := 3 }

/-- Mimic of C `%.2f` for the diagnostic string: sign, integer part and the
value rounded to two fractional digits (binary-float rounding detail of
the Python interpolation is abstracted to rounding of the rational). -/
def format2f (q : ℚ) : String :=
  let n : Int := round (q * 100)
  let a := n.natAbs
  let frac := a % 100
  (if n < 0 then "-" else "") ++ toString (a / 100) ++ "." ++
    (if frac < 10 then "0" else "") ++ toString frac

/-- The diagnostic string `'Inference: %.2f ms  FPS: %.2f fps' % (inf_time, fps)`. -/
def inf_info (inf_time fps : ℚ) : String :=
  "Inference: " ++ format2f inf_time ++ " ms  FPS: " ++ format2f fps ++ " fps"

/-- The quantities `receive_next_sample` derives on the success path. -/
structure InferenceData where
  inf_time : ℚ
  fps : ℚ
  text_lines : String
  forwarded : Option Sample
deriving DecidableEq, Repr

/-- Observable outcome of one `receive_next_sample` call: the stage state
once the call returns or raises, and either the derived data (with the
sample forwarded downstream, if any) or the propagated engine exception. -/
structure InferOutput where
  stage : AiInference
  result : Except EngineError InferenceData

/-- `AiInference.receive_next_sample(image)`.  The engine is invoked with
`detectArgs`; if it raises, nothing after the call runs (no state update,
no forwarding) and the exception propagates.  On success the stage
computes `inf_time = (end_time - start_time) * 1000` and
`fps = 1.0 / (end_time - self.last_time)`, formats the diagnostic string,
updates `self.last_time = end_time`, and forwards
`[objs, self.labels, text_lines]` exactly when `self.next_element` is set. -/
def AiInference.receive_next_sample (s : AiInference) (image : Sample)
    (c : EngineCall) : DetectArgs × InferOutput :=
  (detectArgs s image,
   match c.result with
   | .error e => { stage := s, result := .error e }
   | .ok objs =>
     let inf_time := (c.end_time - c.start_time) * 1000
     let fps := 1 / (c.end_time - s.last_time)
     let text_lines := inf_info inf_time fps
     { stage := { s with last_time := c.end_time }
       result := .ok
         { inf_time := inf_time
           fps := fps
           text_lines := text_lines
           forwarded :=
             if s.next_element.isSome then
               some (.packaged objs s.labels text_lines)
             else none } })

/-- The package `[objs, self.labels, text_lines]` stage `s` produces from
an engine call returning `objs`: its output sample. -/
def producedOutput (s : AiInference) (c : EngineCall) (objs : List Obj) : Sample :=
  .packaged objs s.labels
    (inf_info ((c.end_time - c.start_time) * 1000) (1 / (c.end_time - s.last_time)))

/-- Synchronous execution of a two-element chain on one sample: deliver
`x` to `A`; when `A` forwards (its `next_element` is wired, resolving to
`B`), `B.receive_next_sample` runs on the forwarded sample before `A`'s
call returns.  Returns the list of samples `B.receive_next_sample` was
invoked with (the invocation trace), the final states of both stages, and
the engine exception that escaped the whole call, if any. -/
def receivePair (A B : AiInference) (x : Sample) (cA cB : EngineCall) :
    List Sample × AiInference × AiInference × Option EngineError :=
  let outA := (A.receive_next_sample x cA).2
  match outA.result with
  | .error e => ([], outA.stage, B, some e)
  | .ok d =>
    match d.forwarded with
    | none => ([], outA.stage, B, none)
    | some y =>
      let outB := (B.receive_next_sample y cB).2
      ([y], outA.stage, outB.stage,
       match outB.result with
       | .error e => some e
       | .ok _ => none)

/-! Spec-side definitions (from the specification's words, for comparison
with the source embedding above). -/

/-- Helper for `specLineMatches`: after the digit run, the spec pattern
needs `\s+` followed by `.+`, i.e. some nonempty whitespace prefix of the
remainder followed by at least one non-newline character. -/
def specTail : List Char → Bool
  | [] => false
  | c1 :: rest =>
    isPySpace c1 &&
    (match rest with
     | [] => false
     | c2 :: _ => decide (c2 ≠ '\n') || specTail rest)

/-- Whether a line matches the specification's well-formed label-line
pattern `\d+\s+.+` (an integer id, whitespace, then free text), under
`re.match` semantics. -/
def specLineMatches (line : String) : Bool :=
  let cs := line.toList
  !(cs.takeWhile Char.isDigit).isEmpty && specTail (cs.dropWhile Char.isDigit)

/-- Example fixtures used by the concrete witnesses below. -/
def exFs : List String := ["model.tflite", "labels.txt"]

/-- Lines of an example well-formed labels file. -/
def exLines : List String := ["0 person", "15 cat"]

/-- Example filesystem contents: only `labels.txt` has lines. -/
def exContents : String → List String :=
  fun p => if p = "labels.txt" then exLines else []

/-- A valid example configuration record. -/
def exCfg : ElementConfig :=
  { model := some "model.tflite", labels := some "labels.txt"
    confidence_threshold := some (1/2), top_k := some 3 }

/-- The stage `AiInference.construct exFs exContents 0 exCfg` produces. -/
def exStage : AiInference :=
  { labels := [(0, "person"), (15, "cat")], last_time := 0
    confidence_threshold := 1/2, next_element := none }

/-- The stage `AiInference.construct exFs exContents 1 exCfg` produces. -/
def exStage1 : AiInference :=
  { labels := [(0, "person"), (15, "cat")], last_time := 1
    confidence_threshold := 1/2, next_element := none }

/-- An example successful engine invocation. -/
def exCallOk : EngineCall := { start_time := 2, result := .ok [⟨7⟩], end_time := 3 }

/-- A second successful engine invocation, later on the clock. -/
def exCallOk2 : EngineCall := { start_time := 5, result := .ok [⟨8⟩], end_time := 6 }

/-- An example engine invocation that raises. -/
def exCallErr : EngineCall := { start_time := 2, result := .error ⟨1⟩, end_time := 3 }

/-- A configuration that sets `top_k` to 5. -/
def exCfg5 : ElementConfig :=
  { model := some "model.tflite", labels := some "labels.txt"
    confidence_threshold := some (1/2), top_k := some 5 }

/-- A configuration with no model path. -/
def exCfgNoModel : ElementConfig :=
  { model := none, labels := some "labels.txt"
    confidence_threshold := none, top_k := none }

/-- A configuration whose labels path names no existing file. -/
def exCfgBadLabels : ElementConfig :=
  { model := some "model.tflite", labels := some "nope.txt"
    confidence_threshold := none, top_k := none }

/-- Contents of a labels file whose only line has no whitespace between
the id and the text. -/
def exContentsNoWs : String → List String :=
  fun p => if p = "labels.txt" then ["0person"] else []

/-- The stage constructed from the no-whitespace labels file. -/
def exStageNoWs : AiInference :=
  { labels := [(0, "person")], last_time := 0
    confidence_threshold := 1/2, next_element := none }

/-- Contents of a labels file with a malformed (empty) middle line. -/
def exContentsBadLine : String → List String :=
  fun p => if p = "labels.txt" then ["0 person", "", "15 cat"] else []

/-- The integer class identifier of a spec-well-formed label line. -/
def specLineId (line : String) : Nat :=
  digitsToNat (line.toList.takeWhile Char.isDigit)

/-- The trimmed label text of a spec-well-formed label line (trimming the
free text equals trimming everything after the digit run, since only
whitespace separates them). -/
def specLineText (line : String) : String :=
  pyStrip (String.mk (line.toList.dropWhile Char.isDigit))

/-! Helper lemmas shared by the claim theorems. -/

/-- Equation for `receive_next_sample` when the engine call succeeds. -/
lemma receive_next_sample_ok (s : AiInference) (x : Sample) (c : EngineCall)
    (objs : List Obj) (hok : c.result = .ok objs) :
    s.receive_next_sample x c =
      (detectArgs s x,
       { stage := { s with last_time := c.end_time }
         result := .ok
           { inf_time := (c.end_time - c.start_time) * 1000
             fps := 1 / (c.end_time - s.last_time)
             text_lines := inf_info ((c.end_time - c.start_time) * 1000)
               (1 / (c.end_time - s.last_time))
             forwarded :=
               if s.next_element.isSome then
                 some (.packaged objs s.labels
                   (inf_info ((c.end_time - c.start_time) * 1000)
                     (1 / (c.end_time - s.last_time))))
               else none } }) := by
  unfold AiInference.receive_next_sample
  rw [hok]

/-- Equation for `receive_next_sample` when the engine call raises. -/
lemma receive_next_sample_err (s : AiInference) (x : Sample) (c : EngineCall)
    (e : EngineError) (herr : c.result = .error e) :
    s.receive_next_sample x c = (detectArgs s x, { stage := s, result := .error e }) := by
  unfold AiInference.receive_next_sample
  rw [herr]

/-- Inversion for a successful construction: recover the field values the
constructor stored. -/
lemma construct_ok_inv {fs : List String} {contents : String → List String}
    {now : ℚ} {cfg : ElementConfig} {s : AiInference}
    (h : AiInference.construct fs contents now cfg = .ok s) :
    s.last_time = now ∧ s.next_element = none ∧
      s.confidence_threshold = cfg.confidence_threshold.getD (6/10) ∧
      ∃ l, cfg.labels = some l ∧ load_labels (contents l) = some s.labels := by
  unfold AiInference.construct at h
  split at h
  · exact absurd h (by simp)
  · split at h
    · exact absurd h (by simp)
    · split at h
      · split at h
        · exact absurd h (by simp)
        · next l hl =>
          split at h
          · split at h
            · exact absurd h (by simp)
            · next d hload =>
              have hs := (Except.ok.inj h).symm
              subst hs
              exact ⟨rfl, rfl, rfl, l, hl, by rw [hload]⟩
          · exact absurd h (by simp)
      · exact absurd h (by simp)

/-- A wired stage forwards its produced package: the downstream invocation
trace of the two-element chain is exactly that one sample. -/
lemma receivePair_trace_wired (A B : AiInference) (x : Sample) (cA cB : EngineCall)
    (objs : List Obj) (hok : cA.result = .ok objs) (hnext : A.next_element = some ()) :
    (receivePair A B x cA cB).1 = [producedOutput A cA objs] := by
  unfold receivePair
  rw [receive_next_sample_ok A x cA objs hok]
  simp only [hnext, Option.isSome_some, if_pos]
  cases hB : (B.receive_next_sample
      (producedOutput A cA objs) cB).2.result <;>
    simp [producedOutput, hB]

/-- A terminal stage forwards nothing: the downstream invocation trace of
the two-element chain is empty. -/
lemma receivePair_trace_terminal (A B : AiInference) (x : Sample) (cA cB : EngineCall)
    (objs : List Obj) (hok : cA.result = .ok objs) (hnext : A.next_element = none) :
    (receivePair A B x cA cB).1 = [] := by
  unfold receivePair
  rw [receive_next_sample_ok A x cA objs hok]
  simp [hnext]

/-! Claim theorems. -/

/-- C1: wiring A→B and delivering a sample to A invokes B's
`receive_next_sample` exactly once, with A's produced output package; a
stage with no next element attached completes successfully without
forwarding. -/
theorem chain_forwarding (A B : AiInference) (x : Sample) (cA cB : EngineCall)
    (objs : List Obj) (hok : cA.result = .ok objs) :
    (receivePair A.set_next B x cA cB).1 = [producedOutput A.set_next cA objs] ∧
    (A.next_element = none →
      (receivePair A B x cA cB).1 = [] ∧
      ∃ d, (A.receive_next_sample x cA).2.result = .ok d ∧ d.forwarded = none) := by
  constructor
  · exact receivePair_trace_wired A.set_next B x cA cB objs hok rfl
  · intro hnone
    refine ⟨receivePair_trace_terminal A B x cA cB objs hok hnone, ?_⟩
    rw [receive_next_sample_ok A x cA objs hok]
    exact ⟨_, rfl, by simp [hnone]⟩

/-- C1 witness at concrete inputs. -/
theorem chain_forwarding_witness :
    (receivePair exStage.set_next exStage (.image 0) exCallOk exCallOk2).1 =
      [producedOutput exStage.set_next exCallOk [⟨7⟩]] ∧
    (exStage.next_element = none →
      (receivePair exStage exStage (.image 0) exCallOk exCallOk2).1 = [] ∧
      ∃ d, (exStage.receive_next_sample (.image 0) exCallOk).2.result = .ok d ∧
        d.forwarded = none) :=
  chain_forwarding exStage exStage (.image 0) exCallOk exCallOk2 [⟨7⟩] rfl

/-- C2: when the engine call raises, `receive_next_sample` propagates the
exception unchanged to its caller, and the downstream stage is never
invoked (empty trace, B untouched). -/
theorem engine_error_propagates (A B : AiInference) (x : Sample) (cA cB : EngineCall)
    (e : EngineError) (h : cA.result = .error e) :
    (A.receive_next_sample x cA).2.result = .error e ∧
    receivePair A B x cA cB = ([], A, B, some e) := by
  have hr := receive_next_sample_err A x cA e h
  refine ⟨by rw [hr], ?_⟩
  unfold receivePair
  rw [hr]

/-- C2 witness at concrete inputs. -/
theorem engine_error_propagates_witness :
    (exStage.receive_next_sample (.image 0) exCallErr).2.result = .error ⟨1⟩ ∧
    receivePair exStage exStage (.image 0) exCallErr exCallOk =
      ([], exStage, exStage, some ⟨1⟩) :=
  engine_error_propagates exStage exStage (.image 0) exCallErr exCallOk ⟨1⟩ rfl

/-- C3: a successful invocation computes
`inference_time_ms = (end - start) * 1000` and `fps = 1 / (end - last_time)`
against the stored previous end timestamp, and stores the current end
timestamp; the next successful invocation computes its fps against it. -/
theorem timing_computation (s : AiInference) (x x2 : Sample) (c c2 : EngineCall)
    (objs objs2 : List Obj) (hok : c.result = .ok objs) (hok2 : c2.result = .ok objs2) :
    ∃ d, (s.receive_next_sample x c).2.result = .ok d ∧
      d.inf_time = (c.end_time - c.start_time) * 1000 ∧
      d.fps = 1 / (c.end_time - s.last_time) ∧
      (s.receive_next_sample x c).2.stage.last_time = c.end_time ∧
      ∃ d2, (((s.receive_next_sample x c).2.stage).receive_next_sample x2 c2).2.result
          = .ok d2 ∧
        d2.fps = 1 / (c2.end_time - c.end_time) := by
  rw [receive_next_sample_ok s x c objs hok]
  refine ⟨_, rfl, rfl, rfl, rfl, ?_⟩
  rw [receive_next_sample_ok _ x2 c2 objs2 hok2]
  exact ⟨_, rfl, rfl⟩

/-- C3 witness at concrete inputs. -/
theorem timing_computation_witness :
    ∃ d, (exStage.receive_next_sample (.image 0) exCallOk).2.result = .ok d ∧
      d.inf_time = (exCallOk.end_time - exCallOk.start_time) * 1000 ∧
      d.fps = 1 / (exCallOk.end_time - exStage.last_time) ∧
      (exStage.receive_next_sample (.image 0) exCallOk).2.stage.last_time
        = exCallOk.end_time ∧
      ∃ d2, (((exStage.receive_next_sample (.image 0) exCallOk).2.stage).receive_next_sample
          (.image 1) exCallOk2).2.result = .ok d2 ∧
        d2.fps = 1 / (exCallOk2.end_time - exCallOk.end_time) :=
  timing_computation exStage (.image 0) (.image 1) exCallOk exCallOk2 [⟨7⟩] [⟨8⟩] rfl rfl

/-- C8: construction initializes `last_time` to the construction-time
clock reading, so the first successful invocation's fps divides by
`end - construction time`, never by an unset value. -/
theorem last_time_initialized (fs : List String) (contents : String → List String)
    (now : ℚ) (cfg : ElementConfig) (s : AiInference)
    (h : AiInference.construct fs contents now cfg = .ok s) :
    s.last_time = now ∧
    ∀ x c objs, c.result = .ok objs →
      ∃ d, (s.receive_next_sample x c).2.result = .ok d ∧
        d.fps = 1 / (c.end_time - now) := by
  obtain ⟨hlast, -, -, -⟩ := construct_ok_inv h
  refine ⟨hlast, fun x c objs hok => ?_⟩
  rw [receive_next_sample_ok s x c objs hok]
  exact ⟨_, rfl, by rw [hlast]⟩

/-- C8 witness at concrete inputs. -/
theorem last_time_initialized_witness :
    exStage.last_time = 0 ∧
    ∀ x c objs, c.result = .ok objs →
      ∃ d, (exStage.receive_next_sample x c).2.result = .ok d ∧
        d.fps = 1 / (c.end_time - 0) :=
  last_time_initialized exFs exContents 0 exCfg exStage rfl

/-- C9: label loading is deterministic in the configuration and file
contents — two constructions from the identical configuration record load
equal label mappings. -/
theorem label_loading_deterministic (fs : List String) (contents : String → List String)
    (cfg : ElementConfig) (now1 now2 : ℚ) (s1 s2 : AiInference)
    (h1 : AiInference.construct fs contents now1 cfg = .ok s1)
    (h2 : AiInference.construct fs contents now2 cfg = .ok s2) :
    s1.labels = s2.labels := by
  obtain ⟨-, -, -, l1, hl1, hload1⟩ := construct_ok_inv h1
  obtain ⟨-, -, -, l2, hl2, hload2⟩ := construct_ok_inv h2
  rw [hl1] at hl2
  cases Option.some.inj hl2
  rw [hload1] at hload2
  exact Option.some.inj hload2

/-- C9 witness at concrete inputs. -/
theorem label_loading_deterministic_witness : exStage.labels = exStage1.labels :=
  label_loading_deterministic exFs exContents exCfg 0 1 exStage exStage1 rfl rfl

/-- C10: when the engine call raises, the invocation leaves the stage
state — in particular `last_time` — unchanged, so the next successful
call computes fps against the previous successful end timestamp. -/
theorem engine_failure_preserves_state (s : AiInference) (x : Sample) (c : EngineCall)
    (e : EngineError) (h : c.result = .error e) :
    (s.receive_next_sample x c).2.stage = s ∧
    (s.receive_next_sample x c).2.stage.last_time = s.last_time ∧
    ∀ x2 c2 objs2, c2.result = .ok objs2 →
      ∃ d2, (((s.receive_next_sample x c).2.stage).receive_next_sample x2 c2).2.result
          = .ok d2 ∧
        d2.fps = 1 / (c2.end_time - s.last_time) := by
  rw [receive_next_sample_err s x c e h]
  refine ⟨rfl, rfl, fun x2 c2 objs2 hok2 => ?_⟩
  rw [receive_next_sample_ok s x2 c2 objs2 hok2]
  exact ⟨_, rfl, rfl⟩

/-- C10 witness at concrete inputs. -/
theorem engine_failure_preserves_state_witness :
    (exStage.receive_next_sample (.image 0) exCallErr).2.stage = exStage ∧
    (exStage.receive_next_sample (.image 0) exCallErr).2.stage.last_time
      = exStage.last_time ∧
    ∀ x2 c2 objs2, c2.result = .ok objs2 →
      ∃ d2, (((exStage.receive_next_sample (.image 0) exCallErr).2.stage).receive_next_sample
          x2 c2).2.result = .ok d2 ∧
        d2.fps = 1 / (c2.end_time - exStage.last_time) :=
  engine_failure_preserves_state exStage (.image 0) exCallErr ⟨1⟩ rfl

/-! Label-parsing lemmas. -/

/-- A decimal digit is not in Python's whitespace class. -/
lemma not_pySpace_of_digit {c : Char} (h : c.isDigit = true) : isPySpace c = false := by
  cases hx : isPySpace c
  · rfl
  · unfold isPySpace at hx
    simp only [Bool.or_eq_true, beq_iff_eq] at hx
    rcases hx with ((((h1 | h1) | h1) | h1) | h1) | h1 <;> subst h1 <;> exact absurd h (by decide)

/-- Taking while a predicate holds of every element is the identity. -/
lemma takeWhile_all {p : Char → Bool} {l : List Char} (h : ∀ c ∈ l, p c = true) :
    l.takeWhile p = l := by
  induction l with
  | nil => rfl
  | cons hd tl ih =>
    have h1 := h hd (List.mem_cons_self hd tl)
    have h2 := ih fun c hc => h c (List.mem_cons_of_mem hd hc)
    simp [List.takeWhile_cons, h1, h2]

/-- On a newline-free line matching the spec pattern `\d+\s+.+`, the code
regex `\s*(\d+)(.+)` matches with groups: the digit run, and everything
after it. -/
lemma matchLine_of_specMatches (line : String) (hnl : '\n' ∉ line.toList)
    (hwf : specLineMatches line = true) :
    matchLine line.toList = some (line.toList.takeWhile Char.isDigit,
                                  line.toList.dropWhile Char.isDigit) := by
  unfold specLineMatches at hwf
  simp only [Bool.and_eq_true, Bool.not_eq_true'] at hwf
  obtain ⟨hds, htail⟩ := hwf
  obtain ⟨c, cs', hcs⟩ : ∃ c cs', line.toList = c :: cs' := by
    cases hl : line.toList with
    | nil => rw [hl] at hds; exact absurd hds (by simp)
    | cons c cs' => exact ⟨c, cs', rfl⟩
  have hcdig : c.isDigit = true := by
    by_contra hc
    rw [hcs, List.takeWhile_cons, if_neg hc] at hds
    exact absurd hds (by simp)
  have h1 : line.toList.dropWhile isPySpace = line.toList := by
    rw [hcs, List.dropWhile_cons, not_pySpace_of_digit hcdig]
    simp
  have hrestne : ((line.toList.dropWhile Char.isDigit).isEmpty) = false := by
    cases hr : line.toList.dropWhile Char.isDigit with
    | nil => rw [hr] at htail; exact absurd htail (by simp [specTail])
    | cons c1 rest' => rfl
  have hnlrest : ∀ d ∈ line.toList.dropWhile Char.isDigit,
      (fun x => decide (x ≠ '\n')) d = true := by
    intro d hd
    have hdmem : d ∈ line.toList := (List.dropWhile_sublist _).subset hd
    simp only [ne_eq, decide_eq_true_eq]
    intro he
    exact hnl (he ▸ hdmem)
  have h2 : (line.toList.dropWhile Char.isDigit).takeWhile (fun x => decide (x ≠ '\n'))
      = line.toList.dropWhile Char.isDigit := takeWhile_all hnlrest
  simp only [matchLine, h1, h2, hds, hrestne]
  simp

/-- Parsing a list of newline-free, spec-well-formed label lines yields
exactly the per-line (id, trimmed text) entries, in order. -/
lemma parseLabelLines_of_specMatches (lines : List String)
    (hnl : ∀ line ∈ lines, '\n' ∉ line.toList)
    (hwf : ∀ line ∈ lines, specLineMatches line = true) :
    parseLabelLines (lines.map String.toList) =
      some (lines.map fun line => (specLineId line, specLineText line)) := by
  induction lines with
  | nil => rfl
  | cons hd tl ih =>
    have h1 := matchLine_of_specMatches hd (hnl hd (List.mem_cons_self hd tl))
      (hwf hd (List.mem_cons_self hd tl))
    have h2 := ih (fun l hl => hnl l (List.mem_cons_of_mem hd hl))
      (fun l hl => hwf l (List.mem_cons_of_mem hd hl))
    simp only [List.map_cons]
    unfold parseLabelLines
    rw [h1, h2]
    rfl

/-- If some line of the file does not match the code regex, the whole
parse fails (the generated dict is never produced). -/
lemma parseLabelLines_none (css : List (List Char)) (cs : List Char)
    (hmem : cs ∈ css) (hbad : matchLine cs = none) :
    parseLabelLines css = none := by
  induction css with
  | nil => cases hmem
  | cons hd tl ih =>
    rcases List.mem_cons.mp hmem with h | h
    · subst h
      unfold parseLabelLines
      rw [hbad]
    · unfold parseLabelLines
      cases hhd : matchLine hd with
      | none => rfl
      | some g =>
        obtain ⟨num, text⟩ := g
        rw [ih h]

/-- Inserting a fresh key appends the pair. -/
lemma dictInsert_fresh (d : List (Nat × String)) (k : Nat) (v : String)
    (h : k ∉ d.map Prod.fst) : dictInsert d k v = d ++ [(k, v)] := by
  unfold dictInsert
  rw [if_neg]
  intro hc
  exact h (by simpa using hc)

/-- Folding dict insertion over entries with globally distinct keys just
appends them. -/
lemma foldl_dictInsert_nodup (ps : List (Nat × String)) :
    ∀ acc : List (Nat × String), ((acc ++ ps).map Prod.fst).Nodup →
      ps.foldl (fun d p => dictInsert d p.1 p.2) acc = acc ++ ps := by
  induction ps with
  | nil => intro acc _; simp
  | cons p tl ih =>
    intro acc h
    have hfresh : p.1 ∉ acc.map Prod.fst := by
      rw [List.map_append, List.nodup_append] at h
      intro hmem
      exact h.2.2 hmem (by simp)
    have hassoc : (acc ++ [p]) ++ tl = acc ++ p :: tl := by simp
    rw [List.foldl_cons, dictInsert_fresh acc p.1 p.2 hfresh]
    have := ih (acc ++ [p]) (by rw [hassoc]; exact h)
    rw [this, hassoc]

/-- The Python dict built from entries with distinct keys is those entries. -/
lemma buildDict_nodup (ps : List (Nat × String)) (h : (ps.map Prod.fst).Nodup) :
    buildDict ps = ps :=
  foldl_dictInsert_nodup ps [] (by simpa using h)

/-- A key is looked up successfully exactly when it occurs among the keys. -/
lemma lookup_isSome_iff (ps : List (Nat × String)) (k : Nat) :
    ((ps.lookup k).isSome = true) ↔ k ∈ ps.map Prod.fst := by
  induction ps with
  | nil => simp [List.lookup]
  | cons p tl ih =>
    obtain ⟨a, b⟩ := p
    by_cases h : k = a
    · subst h
      simp [List.lookup]
    · have hb : (k == a) = false := by simpa using h
      simp [List.lookup, hb, ih, h]

/-- Lookup of a present key in a distinct-key association list. -/
lemma lookup_eq_of_mem_nodup (ps : List (Nat × String)) (k : Nat) (v : String)
    (hmem : (k, v) ∈ ps) (hnd : (ps.map Prod.fst).Nodup) : ps.lookup k = some v := by
  induction ps with
  | nil => cases hmem
  | cons p tl ih =>
    obtain ⟨a, b⟩ := p
    rw [List.map_cons] at hnd
    rcases List.mem_cons.mp hmem with h | h
    · cases h
      simp [List.lookup]
    · have hk : k ≠ a := by
        intro he
        subst he
        exact (List.nodup_cons.mp hnd).1 (List.mem_map.mpr ⟨(k, v), h, rfl⟩)
      have hb : (k == a) = false := by simpa using hk
      simp only [List.lookup, hb]
      exact ih h (List.nodup_cons.mp hnd).2

/-- With valid model configuration and an existing labels file,
construction is decided by the label load. -/
lemma construct_reaches_labels (fs : List String) (contents : String → List String)
    (now : ℚ) (cfg : ElementConfig) (m l : String)
    (hm : cfg.model = some m) (hm0 : m ≠ "") (hmf : fs.contains m = true)
    (hl : cfg.labels = some l) (hlf : fs.contains l = true) :
    AiInference.construct fs contents now cfg =
      match load_labels (contents l) with
      | none => .error .labelParseError
      | some d => .ok { labels := d, last_time := now
                        confidence_threshold := cfg.confidence_threshold.getD (6/10)
                        next_element := none } := by
  have hmf' : m ∈ fs := by simpa using hmf
  have hlf' : l ∈ fs := by simpa using hlf
  simp [AiInference.construct, hm, hm0, hl, hmf', hlf']

/-- C4: for every valid configuration (present nonempty model path naming
an existing file, labels path naming an existing file whose lines are all
well-formed with distinct ids, threshold in [0,1], top_k ≥ 1),
construction succeeds and the label mapping contains exactly the class
identifiers present in the labels file, each mapped to its trimmed label
text. -/
theorem construct_valid_labels (fs : List String) (contents : String → List String)
    (now : ℚ) (cfg : ElementConfig) (m l : String)
    (hm : cfg.model = some m) (hm0 : m ≠ "") (hmf : fs.contains m = true)
    (hl : cfg.labels = some l) (hlf : fs.contains l = true)
    (hth : ∀ q, cfg.confidence_threshold = some q → 0 ≤ q ∧ q ≤ 1)
    (htk : ∀ k, cfg.top_k = some k → 1 ≤ k)
    (hnl : ∀ line ∈ contents l, '\n' ∉ line.toList)
    (hwf : ∀ line ∈ contents l, specLineMatches line = true)
    (hnd : ((contents l).map specLineId).Nodup) :
    ∃ s, AiInference.construct fs contents now cfg = .ok s ∧
      (∀ n, ((s.labels.lookup n).isSome = true) ↔ n ∈ (contents l).map specLineId) ∧
      (∀ line ∈ contents l, s.labels.lookup (specLineId line) = some (specLineText line)) := by
  have hkeys : ((contents l).map fun line => (specLineId line, specLineText line)).map Prod.fst
      = (contents l).map specLineId := by
    rw [List.map_map]
    rfl
  have hload : load_labels (contents l) =
      some ((contents l).map fun line => (specLineId line, specLineText line)) := by
    unfold load_labels
    rw [parseLabelLines_of_specMatches (contents l) hnl hwf]
    exact congrArg some (buildDict_nodup _ (by rw [hkeys]; exact hnd))
  refine ⟨{ labels := (contents l).map fun line => (specLineId line, specLineText line)
            last_time := now
            confidence_threshold := cfg.confidence_threshold.getD (6/10)
            next_element := none }, ?_, ?_, ?_⟩
  · rw [construct_reaches_labels fs contents now cfg m l hm hm0 hmf hl hlf, hload]
  · intro n
    rw [lookup_isSome_iff, hkeys]
  · intro line hline
    exact lookup_eq_of_mem_nodup _ _ _
      (List.mem_map.mpr ⟨line, hline, rfl⟩) (by rw [hkeys]; exact hnd)

/-- C4 witness at a concrete valid configuration. -/
theorem construct_valid_labels_witness :
    ∃ s, AiInference.construct exFs exContents 0 exCfg = .ok s ∧
      (∀ n, ((s.labels.lookup n).isSome = true) ↔
        n ∈ (exContents "labels.txt").map specLineId) ∧
      (∀ line ∈ exContents "labels.txt",
        s.labels.lookup (specLineId line) = some (specLineText line)) :=
  construct_valid_labels exFs exContents 0 exCfg "model.tflite" "labels.txt"
    rfl (by decide) (by decide) rfl (by decide)
    (fun q hq => by cases Option.some.inj hq; exact ⟨by norm_num, by norm_num⟩)
    (fun k hk => by cases Option.some.inj hk; decide)
    (by decide) (by decide) (by decide)

/-- C5 counterexample: the line `"0person"` does not match the claimed
pattern `\d+\s+.+`, yet construction over a labels file consisting of that
line succeeds (the code regex `\s*(\d+)(.+)` requires no whitespace
between id and text), instead of failing with a `LabelParseError`. -/
theorem label_parse_counterexample :
    specLineMatches "0person" = false ∧
    AiInference.construct exFs exContentsNoWs 0 exCfg = .ok exStageNoWs ∧
    exStageNoWs.labels.lookup 0 = some "person" := by
  exact ⟨by decide, rfl, rfl⟩

/-- C5 (amended): for every labels file containing at least one line not
matching the code's pattern `\s*(\d+)(.+)`, construction (with valid
model and labels paths) fails with a `LabelParseError`, regardless of the
malformed line's position, and no stage is produced. -/
theorem construct_fails_on_unmatched_line (fs : List String)
    (contents : String → List String) (now : ℚ) (cfg : ElementConfig)
    (m l : String) (hm : cfg.model = some m) (hm0 : m ≠ "")
    (hmf : fs.contains m = true) (hl : cfg.labels = some l) (hlf : fs.contains l = true)
    (line : String) (hmem : line ∈ contents l) (hbad : matchLine line.toList = none) :
    AiInference.construct fs contents now cfg = .error .labelParseError ∧
    ∀ s, AiInference.construct fs contents now cfg ≠ .ok s := by
  have hload : load_labels (contents l) = none := by
    unfold load_labels
    rw [parseLabelLines_none ((contents l).map String.toList) line.toList
      (List.mem_map.mpr ⟨line, hmem, rfl⟩) hbad]
    rfl
  have herr : AiInference.construct fs contents now cfg = .error .labelParseError := by
    rw [construct_reaches_labels fs contents now cfg m l hm hm0 hmf hl hlf, hload]
  exact ⟨herr, fun s hs => by rw [herr] at hs; exact Except.noConfusion hs⟩

/-- C5 (amended) witness: a malformed middle line. -/
theorem construct_fails_on_unmatched_line_witness :
    AiInference.construct exFs exContentsBadLine 0 exCfg = .error .labelParseError ∧
    ∀ s, AiInference.construct exFs exContentsBadLine 0 exCfg ≠ .ok s :=
  construct_fails_on_unmatched_line exFs exContentsBadLine 0 exCfg
    "model.tflite" "labels.txt" rfl (by decide) (by decide) rfl (by decide)
    "" (by decide) (by decide)

/-- C6: construction fails with a `ConfigurationError` when the model
path is missing or empty, and with a `MissingFileError` when the model
path is fine but the labels path names no existing file; in both cases no
usable stage is produced. -/
theorem construct_error_cases (fs : List String) (contents : String → List String)
    (now : ℚ) (cfg : ElementConfig) :
    ((cfg.model = none ∨ cfg.model = some "") →
      AiInference.construct fs contents now cfg = .error .configurationError ∧
      ∀ s, AiInference.construct fs contents now cfg ≠ .ok s) ∧
    (∀ m l, cfg.model = some m → m ≠ "" → fs.contains m = true →
      cfg.labels = some l → fs.contains l = false →
      AiInference.construct fs contents now cfg = .error .missingFileError ∧
      ∀ s, AiInference.construct fs contents now cfg ≠ .ok s) := by
  constructor
  · intro h
    have herr : AiInference.construct fs contents now cfg = .error .configurationError := by
      rcases h with h | h
      · simp [AiInference.construct, h]
      · simp [AiInference.construct, h]
    exact ⟨herr, fun s hs => by rw [herr] at hs; exact Except.noConfusion hs⟩
  · intro m l hm hm0 hmf hl hlf
    have herr : AiInference.construct fs contents now cfg = .error .missingFileError := by
      have hmf' : m ∈ fs := by simpa using hmf
      have hlf' : l ∉ fs := by simpa using hlf
      simp [AiInference.construct, hm, hm0, hl, hmf', hlf']
    exact ⟨herr, fun s hs => by rw [herr] at hs; exact Except.noConfusion hs⟩

/-- C6 witness: a configuration with no model path, and one whose labels
path names no existing file. -/
theorem construct_error_cases_witness :
    (AiInference.construct exFs exContents 0 exCfgNoModel = .error .configurationError ∧
      ∀ s, AiInference.construct exFs exContents 0 exCfgNoModel ≠ .ok s) ∧
    (AiInference.construct exFs exContents 0 exCfgBadLabels = .error .missingFileError ∧
      ∀ s, AiInference.construct exFs exContents 0 exCfgBadLabels ≠ .ok s) :=
  ⟨(construct_error_cases exFs exContents 0 exCfgNoModel).1 (Or.inl rfl),
   (construct_error_cases exFs exContents 0 exCfgBadLabels).2 "model.tflite" "nope.txt"
     rfl (by decide) (by decide) rfl (by decide)⟩

/-- C7 counterexample: with `top_k` configured to 5, the engine is still
invoked with `top_k = 3` (the literal in the source), not the configured
cutoff — refuting the claim that the configured top-K is passed. -/
theorem topk_config_ignored_counterexample :
    exCfg5.top_k = some 5 ∧
    AiInference.construct exFs exContents 0 exCfg5 = .ok exStage ∧
    (exStage.receive_next_sample (.image 0) exCallOk).1.top_k = 3 ∧
    (exStage.receive_next_sample (.image 0) exCallOk).1.top_k ≠ 5 := by
  exact ⟨rfl, rfl, rfl, by decide⟩

/-- C7 (amended): every invocation calls the engine with the input image,
the stage's confidence threshold (the configured value, default 0.6 when
not configured), keep-aspect-ratio enabled, relative coordinates enabled,
and the constant top-K cutoff 3 — the configured `top_k` is ignored. -/
theorem detect_call_arguments (s : AiInference) (x : Sample) (c : EngineCall)
    (fs : List String) (contents : String → List String) (now : ℚ) (cfg : ElementConfig) :
    (s.receive_next_sample x c).1 =
      { image := x, threshold := s.confidence_threshold
        keep_aspect_ratio := true, relative_coord := true, top_k := 3 } ∧
    (∀ s', AiInference.construct fs contents now cfg = .ok s' →
      (cfg.confidence_threshold = none → s'.confidence_threshold = 6/10) ∧
      (∀ q, cfg.confidence_threshold = some q → s'.confidence_threshold = q) ∧
      ∀ x' c', (s'.receive_next_sample x' c').1.top_k = 3) := by
  refine ⟨rfl, fun s' hs' => ?_⟩
  obtain ⟨-, -, hth, -⟩ := construct_ok_inv hs'
  exact ⟨fun hn => by rw [hth, hn]; rfl,
         fun q hq => by rw [hth, hq]; rfl,
         fun x' c' => rfl⟩

/-- C7 (amended) witness at concrete inputs. -/
theorem detect_call_arguments_witness :
    (exStage.receive_next_sample (.image 0) exCallOk).1 =
      { image := .image 0, threshold := exStage.confidence_threshold
        keep_aspect_ratio := true, relative_coord := true, top_k := 3 } ∧
    (∀ s', AiInference.construct exFs exContents 0 exCfg = .ok s' →
      (exCfg.confidence_threshold = none → s'.confidence_threshold = 6/10) ∧
      (∀ q, exCfg.confidence_threshold = some q → s'.confidence_threshold = q) ∧
      ∀ x' c', (s'.receive_next_sample x' c').1.top_k = 3) :=
  detect_call_arguments exStage (.image 0) exCallOk exFs exContents 0 exCfg

end Ambianic
